import Mathlib

/-!
Verification of the merge-workflow engine of git-mergex (src/cmd/root.go).

The engine issues a deterministic sequence of external git commands and
decides messages from their textual output.  We embed it shallowly: the
external world is a function from a command argument vector to the captured
outcome (exit status, combined output, error text), and the engine is a pure
function from the parsed flags, the positional arguments and the world to a
result record holding the propagated error (if any), the ordered trace of
issued commands and the lines printed.

String primitives of the Go standard library (strings.TrimSpace,
strings.HasPrefix, strings.Contains, strings.ToLower, strings.Split,
strings.ReplaceAll) are modelled by structurally recursive functions over the
character list of a string, so that every definition evaluates inside the
kernel.  The whitespace class is the ASCII subset (space, tab, carriage
return, newline), which covers every output the engine inspects; the
lower-casing is the ASCII letter range for the same reason.
-/

namespace GitMergex

/-- Character-list test: does the first list start with the second. -/
def startsWithL : List Char → List Char → Bool
  | _, [] => true
  | [], _ :: _ => false
  | a :: as, b :: bs => a = b && startsWithL as bs

/-- Character-list test: does the second list contain the first as a
contiguous sublist (model of strings.Contains). -/
def containsL (pat : List Char) : List Char → Bool
  | [] => pat.isEmpty
  | c :: rest => startsWithL (c :: rest) pat || containsL pat rest

/-- ASCII whitespace, the subset of the Go unicode.IsSpace class that can
occur in the outputs the engine inspects. -/
def isSpaceChar (c : Char) : Bool := c.isWhitespace

/-- Model of strings.TrimSpace on character lists. -/
def trimL (l : List Char) : List Char :=
  ((l.dropWhile isSpaceChar).reverse.dropWhile isSpaceChar).reverse

/-- Model of strings.TrimSpace. -/
def trimS (s : String) : String := String.mk (trimL s.data)

/-- Model of strings.HasPrefix. -/
def startsWithS (s p : String) : Bool := startsWithL s.data p.data

/-- Model of strings.Contains. -/
def containsS (s pat : String) : Bool := containsL pat.data s.data

/-- ASCII lower-casing of one character. -/
def lowerChar (c : Char) : Char :=
  if c.toNat ≥ 65 ∧ c.toNat ≤ 90 then Char.ofNat (c.toNat + 32) else c

/-- Model of strings.ToLower (ASCII range). -/
def toLowerS (s : String) : String := String.mk (s.data.map lowerChar)

/-- Split a character list at newline characters (model of
strings.Split with separator newline). -/
def splitLinesL : List Char → List (List Char)
  | [] => [[]]
  | c :: rest =>
    let r := splitLinesL rest
    if c = '\n' then [] :: r
    else
      match r with
      | [] => [[c]]
      | h :: t => (c :: h) :: t

/-- Model of strings.Split with separator newline. -/
def splitLinesS (s : String) : List String := (splitLinesL s.data).map String.mk

/-- Fuel-bounded worker for replaceS; the fuel is the length of the scanned
list, which bounds the number of scanning steps for a non-empty pattern. -/
def replaceGo (pat rep : List Char) : Nat → List Char → List Char
  | _, [] => []
  | 0, l => l
  | Nat.succ fuel, c :: rest =>
    if pat ≠ [] ∧ startsWithL (c :: rest) pat = true then
      rep ++ replaceGo pat rep fuel ((c :: rest).drop pat.length)
    else
      c :: replaceGo pat rep fuel rest

/-- Model of strings.ReplaceAll for a non-empty pattern. -/
def replaceS (s pat rep : String) : String :=
  String.mk (replaceGo pat.data rep.data s.data.length s.data)

/-- The apostrophe as a one-character string. -/
def apos : String := String.mk [Char.ofNat 39]

/-- The fixed remote name (const remote in root.go). -/
def remote : String := "origin"

/-- The temporary-branch name stem (const mergex in root.go). -/
def mergex : String := "_mergex"

/-- Outcome of one external command: exit success, captured output and the
error text of the Go error value when the command failed. -/
structure CmdResult where
  ok : Bool
  out : String
  errMsg : String
deriving Repr, DecidableEq

/-- The external world: whether the git executable resolves on the search
path, the error text when it does not, and the outcome of each command. -/
structure World where
  lookPathOk : Bool
  lookPathErr : String
  exec : List String → CmdResult

/-- The parsed boolean flags of the command (struct command in root.go). -/
structure Flags where
  dryRun : Bool
  abort : Bool
  cont : Bool
  remove : Bool
deriving Repr, DecidableEq

/-- Result of one engine invocation: the propagated error (none on success),
the ordered trace of issued external commands (as argument vectors) and the
list of printed strings. -/
structure RunResult where
  err : Option String
  trace : List (List String)
  printed : List String
deriving Repr, DecidableEq

/-- Argument vector of git rev-parse --abbrev-ref HEAD (headBranch). -/
def revParseArgs : List String := ["git", "rev-parse", "--abbrev-ref", "HEAD"]

/-- Argument vector of git merge --abort (abortMerge). -/
def mergeAbortArgs : List String := ["git", "merge", "--abort"]

/-- Argument vector of git merge --continue. -/
def mergeContinueArgs : List String := ["git", "merge", "--continue"]

/-- Argument vector of git branch (branch listing in remove mode). -/
def listBranchArgs : List String := ["git", "branch"]

/-- Argument vector of git status --porcelain -uno. -/
def statusArgs : List String := ["git", "status", "--porcelain", "-uno"]

/-- Argument vector of git fetch -f origin <ref>. -/
def fetchArgs (ref : String) : List String := ["git", "fetch", "-f", remote, ref]

/-- Derivation origin/<branch> (remoteBranch in root.go). -/
def remoteBranch (branch : String) : String := remote ++ "/" ++ branch

/-- Derivation _mergex/<branch> (mergexBranch in root.go). -/
def mergexBranch (branch : String) : String := mergex ++ "/" ++ branch

/-- Argument vector of the dry-run trial merge
git merge --no-ff --no-commit origin/<ref>. -/
def dryMergeArgs (ref : String) : List String :=
  ["git", "merge", "--no-ff", "--no-commit", remoteBranch ref]

/-- Argument vector of git branch -f <branch> (staging-branch creation). -/
def branchForceArgs (branch : String) : List String := ["git", "branch", "-f", branch]

/-- Argument vector of git reset --hard <ref>. -/
def resetHardArgs (ref : String) : List String := ["git", "reset", "--hard", ref]

/-- Argument vector of git branch -D <branch> (deleteBranch). -/
def deleteBranchArgs (branch : String) : List String := ["git", "branch", "-D", branch]

/-- Argument vector of the one-shot removal git branch -D <branches...>. -/
def removeBranchesArgs (branches : List String) : List String :=
  ["git", "branch", "-D"] ++ branches

/-- Commit message of the final merge,
Merge branch quote-branch-quote into ref. -/
def mergeMsg (branch ref : String) : String :=
  "Merge branch " ++ apos ++ branch ++ apos ++ " into " ++ ref

/-- Argument vector of the final merge
git merge --no-ff -m <message> _mergex/<branch>. -/
def mergeArgs (branch ref : String) : List String :=
  ["git", "merge", "--no-ff", "-m", mergeMsg branch ref, mergexBranch branch]

/-- Error text of commandError in root.go: the command line from the word
git onward, a colon, and the error text of the tool. -/
def commandError (argv : List String) (errMsg : String) : String :=
  String.intercalate " " argv ++ ": " ++ errMsg

/-- Count of true values (boolSum in root.go). -/
def boolSum (items : List Bool) : Nat :=
  items.foldl (fun sum item => if item then sum + 1 else sum) 0

/-- The usage-error message of the mode validation. -/
def usageError : String :=
  "only one of <branch|commit>, --abort, --continue and --remove can be specified"

/-- The lower-cased marker looked for in a failed fetch output. -/
def remoteRefMissing : String := "couldn" ++ apos ++ "t find remote ref"

/-- The hint printed when the fetch fails and the ref starts with the
remote name. -/
def fetchHint (ref : String) : String :=
  "it seems that the branch " ++ apos ++ ref ++ apos ++ " should not start with "
    ++ apos ++ remote ++ apos ++ "\n"

/-- The trailing phrase stripped from the dry-run merge output. -/
def stoppedSuffix : String := "; stopped before committing as requested"

/-- The marker classifying a merge output as already merged. -/
def upToDate : String := "up to date"

/-- The fast-forward message printed for an up-to-date merge. -/
def fastForwardMsg (ref : String) : String := "Fast-forward to " ++ ref ++ "\n"

/-- The collection loop of remove mode: split the branch listing into lines,
trim each, keep the non-empty ones that start with the mergex stem. -/
def collectMergexBranches (out : String) : List String :=
  (splitLinesS out).filterMap (fun item =>
    let b := trimS item
    if b.length > 0 && startsWithS b mergex then some b else none)

/-- Model of headBranch in root.go: run git rev-parse --abbrev-ref HEAD,
report a command error on failure, trim the output, and reject the branch
names master and release-prefixed as forbidden. -/
def headBranch (w : World) : List (List String) × Except String String :=
  let r := w.exec revParseArgs
  if r.ok then
    let branch := trimS r.out
    if branch == "master" || startsWithS branch "release" then
      ([revParseArgs], Except.error ("branch " ++ branch ++ " is forbidden"))
    else
      ([revParseArgs], Except.ok branch)
  else
    ([revParseArgs], Except.error (commandError revParseArgs r.errMsg))

/-- Abort mode: best-effort git merge --abort, then a hard reset to the
staging branch (its failure is a command error), then best-effort deletion
of the staging branch. -/
def runAbort (w : World) (branch : String) : RunResult :=
  let m := mergexBranch branch
  let r := w.exec (resetHardArgs m)
  if r.ok then
    ⟨none, [mergeAbortArgs, resetHardArgs m, deleteBranchArgs m], []⟩
  else
    ⟨some (commandError (resetHardArgs m) r.errMsg), [mergeAbortArgs, resetHardArgs m], []⟩

/-- Continue mode: best-effort git merge --continue with interactive
input and output, then best-effort deletion of the staging branch. -/
def runContinue (branch : String) : RunResult :=
  ⟨none, [mergeContinueArgs, deleteBranchArgs (mergexBranch branch)], []⟩

/-- Remove mode: list local branches (failure is a command error), collect
the mergex-prefixed ones, and force-delete them in one command when any
were found. -/
def runRemove (w : World) : RunResult :=
  let r := w.exec listBranchArgs
  if r.ok then
    let branches := collectMergexBranches r.out
    if branches.length > 0 then
      ⟨none, [listBranchArgs, removeBranchesArgs branches], []⟩
    else
      ⟨none, [listBranchArgs], []⟩
  else
    ⟨some (commandError listBranchArgs r.errMsg), [listBranchArgs], []⟩

/-- Merge mode (with the dry-run variant): fetch, then either the dry-run
trial merge or the status check, staging-branch creation, hard reset and
final merge with output classification, exactly as laid out in runE of
root.go. -/
def runMerge (w : World) (dryRun : Bool) (branch ref : String) : RunResult :=
  let rf := w.exec (fetchArgs ref)
  if rf.ok then
    if dryRun then
      let rm := w.exec (dryMergeArgs ref)
      ⟨none, [fetchArgs ref, dryMergeArgs ref, mergeAbortArgs],
        [replaceS rm.out stoppedSuffix ""]⟩
    else
      let rs := w.exec statusArgs
      let outs := trimS rs.out
      if outs.length > 0 then
        ⟨some ("Changes not committed before merge:\n" ++ outs),
          [fetchArgs ref, statusArgs], []⟩
      else
        let m := mergexBranch branch
        let rb := w.exec (branchForceArgs m)
        if rb.ok then
          let rr := w.exec (resetHardArgs (remoteBranch ref))
          if rr.ok then
            let rg := w.exec (mergeArgs branch ref)
            ⟨none,
              [fetchArgs ref, statusArgs, branchForceArgs m,
                resetHardArgs (remoteBranch ref), mergeArgs branch ref]
                ++ (if rg.ok then [deleteBranchArgs m] else []),
              [if containsS rg.out upToDate then fastForwardMsg ref else rg.out]⟩
          else
            ⟨some (commandError (resetHardArgs (remoteBranch ref)) rr.errMsg),
              [fetchArgs ref, statusArgs, branchForceArgs m,
                resetHardArgs (remoteBranch ref)], []⟩
        else
          ⟨some (commandError (branchForceArgs m) rb.errMsg),
            [fetchArgs ref, statusArgs, branchForceArgs m], []⟩
  else
    ⟨some (commandError (fetchArgs ref) rf.errMsg), [fetchArgs ref],
      rf.out ::
        (if containsS (toLowerS rf.out) remoteRefMissing && startsWithS ref remote then
          [fetchHint ref]
        else [])⟩

/-- Prepend an already-issued trace to a mode result. -/
def withTrace (t : List (List String)) (r : RunResult) : RunResult :=
  ⟨r.err, t ++ r.trace, r.printed⟩

/-- Model of runE in root.go: mode validation, git lookup on the search
path, the forbidden-branch precondition, then dispatch to the four modes. -/
def runE (cmd : Flags) (args : List String) (w : World) : RunResult :=
  if args.length + boolSum [cmd.abort, cmd.cont, cmd.remove] ≠ 1 then
    ⟨some usageError, [], []⟩
  else if w.lookPathOk = false then
    ⟨some w.lookPathErr, [], []⟩
  else
    match headBranch w with
    | (t, Except.error e) => ⟨some e, t, []⟩
    | (t, Except.ok branch) =>
      withTrace t
        (if cmd.abort then runAbort w branch
         else if cmd.cont then runContinue branch
         else if cmd.remove then runRemove w
         else runMerge w cmd.dryRun branch (args.headD ""))

/-- Observable outcome of the whole process: what was printed and the exit
status. -/
structure ProcessResult where
  printed : List String
  exitCode : Nat
deriving Repr, DecidableEq

/-- Model of Execute in root.go together with the process entry point: the
error returned by the command runner is printed and then discarded, and the
entry point, which only calls Execute, returns normally, so the Go runtime
exits the process with status zero in every case.  Execute in src never
calls an exit primitive and returns nothing, so no caller can recover the
error to choose a different exit status. -/
def Execute (cmd : Flags) (args : List String) (w : World) : ProcessResult :=
  let r := runE cmd args w
  match r.err with
  | some e => ⟨r.printed ++ [e], 0⟩
  | none => ⟨r.printed, 0⟩

/-- Commands that mutate repository state (anything but the read-only
rev-parse, status read and plain branch listing). -/
def isMutating (c : List String) : Bool :=
  match c with
  | "git" :: "rev-parse" :: _ => false
  | "git" :: "status" :: _ => false
  | ["git", "branch"] => false
  | _ => true

/-- Commands that mutate a local branch or the working tree through it:
forced branch creation, branch deletion, hard reset, merge. -/
def isBranchMutating (c : List String) : Bool :=
  match c with
  | "git" :: "branch" :: "-f" :: _ => true
  | "git" :: "branch" :: "-D" :: _ => true
  | "git" :: "reset" :: _ => true
  | "git" :: "merge" :: _ => true
  | _ => false

/-- Example world: current branch feature-x, clean tree, every command
succeeds, the final merge reports an already-up-to-date state, and one
temporary mergex branch exists in the listing. -/
def wOk : World :=
  { lookPathOk := true
    lookPathErr := ""
    exec := fun c =>
      if c = revParseArgs then ⟨true, "feature-x\n", ""⟩
      else if c = mergeArgs "feature-x" "main" then ⟨true, "Already up to date.\n", ""⟩
      else if c = listBranchArgs then ⟨true, "  _mergex/feature-x\n* feature-x\n", ""⟩
      else ⟨true, "", ""⟩ }

/-- Example world whose current branch is master. -/
def wMaster : World :=
  { lookPathOk := true
    lookPathErr := ""
    exec := fun c =>
      if c = revParseArgs then ⟨true, "master\n", ""⟩
      else ⟨true, "", ""⟩ }

/-- Example world with an uncommitted tracked change in the status output. -/
def wDirty : World :=
  { lookPathOk := true
    lookPathErr := ""
    exec := fun c =>
      if c = revParseArgs then ⟨true, "feature-x\n", ""⟩
      else if c = statusArgs then ⟨true, " M main.go\n", ""⟩
      else ⟨true, "", ""⟩ }

/-- Example world in which the fetch of the ref origin-main fails with a
missing-remote-ref message. -/
def wFetchFail : World :=
  { lookPathOk := true
    lookPathErr := ""
    exec := fun c =>
      if c = revParseArgs then ⟨true, "feature-x\n", ""⟩
      else if c = fetchArgs "origin-main" then
        ⟨false, "fatal: couldn" ++ apos ++ "t find remote ref origin/origin-main\n",
          "exit status 128"⟩
      else ⟨true, "", ""⟩ }

/-- Example world in which the porcelain status command itself exits with
an error while producing no output. -/
def wStatusFail : World :=
  { lookPathOk := true
    lookPathErr := ""
    exec := fun c =>
      if c = revParseArgs then ⟨true, "feature-x\n", ""⟩
      else if c = statusArgs then ⟨false, "", "exit status 128"⟩
      else if c = mergeArgs "feature-x" "main" then ⟨true, "Already up to date.\n", ""⟩
      else ⟨true, "", ""⟩ }

lemma headBranch_ok_eq (w : World) (b : String)
    (hok : (w.exec revParseArgs).ok = true)
    (hb : trimS (w.exec revParseArgs).out = b)
    (hf : (b == "master" || startsWithS b "release") = false) :
    headBranch w = ([revParseArgs], Except.ok b) := by
  simp [headBranch, hok, hb, hf]

lemma headBranch_forbidden_eq (w : World) (b : String)
    (hok : (w.exec revParseArgs).ok = true)
    (hb : trimS (w.exec revParseArgs).out = b)
    (hf : (b == "master" || startsWithS b "release") = true) :
    headBranch w = ([revParseArgs], Except.error ("branch " ++ b ++ " is forbidden")) := by
  simp [headBranch, hok, hb, hf]

lemma runE_ok_dispatch (cmd : Flags) (args : List String) (w : World) (b : String)
    (hsum : args.length + boolSum [cmd.abort, cmd.cont, cmd.remove] = 1)
    (hlp : w.lookPathOk = true)
    (hhb : headBranch w = ([revParseArgs], Except.ok b)) :
    runE cmd args w = withTrace [revParseArgs]
      (if cmd.abort then runAbort w b
       else if cmd.cont then runContinue b
       else if cmd.remove then runRemove w
       else runMerge w cmd.dryRun b (args.headD "")) := by
  simp [runE, hsum, hlp, hhb]

lemma runE_headBranch_error (cmd : Flags) (args : List String) (w : World) (e : String)
    (hsum : args.length + boolSum [cmd.abort, cmd.cont, cmd.remove] = 1)
    (hlp : w.lookPathOk = true)
    (hhb : headBranch w = ([revParseArgs], Except.error e)) :
    runE cmd args w = ⟨some e, [revParseArgs], []⟩ := by
  simp [runE, hsum, hlp, hhb]

/-- C1: in Merge, Abort or Continue mode, a current branch named master or
prefixed release makes the engine fail with the forbidden-branch error
naming the branch, and only the read-only rev-parse command was issued. -/
theorem forbidden_branch_blocks_modes (cmd : Flags) (args : List String) (w : World) (b : String)
    (hsum : args.length + boolSum [cmd.abort, cmd.cont, cmd.remove] = 1)
    (hrm : cmd.remove = false)
    (hlp : w.lookPathOk = true)
    (hok : (w.exec revParseArgs).ok = true)
    (hb : trimS (w.exec revParseArgs).out = b)
    (hf : b = "master" ∨ startsWithS b "release" = true) :
    (runE cmd args w).err = some ("branch " ++ b ++ " is forbidden") ∧
      ∀ c ∈ (runE cmd args w).trace, isMutating c = false := by
  have hf2 : (b == "master" || startsWithS b "release") = true := by
    rcases hf with h | h
    · subst h; simp
    · simp [h]
  have hhb := headBranch_forbidden_eq w b hok hb hf2
  rw [runE_headBranch_error cmd args w _ hsum hlp hhb]
  refine ⟨rfl, ?_⟩
  intro c hc
  simp only [List.mem_singleton] at hc
  subst hc
  rfl

/-- C1 witness at a concrete world whose current branch is master. -/
theorem forbidden_branch_blocks_modes_witness :
    (runE ⟨false, true, false, false⟩ [] wMaster).err
        = some ("branch " ++ "master" ++ " is forbidden") ∧
      ∀ c ∈ (runE ⟨false, true, false, false⟩ [] wMaster).trace, isMutating c = false :=
  forbidden_branch_blocks_modes ⟨false, true, false, false⟩ [] wMaster "master"
    (by decide) rfl rfl (by decide) (by decide) (Or.inl rfl)

/-- C2: whenever the count of selected modes differs from one, the engine
returns the usage error and issues no external commands and prints
nothing. -/
theorem invalid_mode_selection (cmd : Flags) (args : List String) (w : World)
    (h : (if args = [] then 0 else 1) + boolSum [cmd.abort, cmd.cont, cmd.remove] ≠ 1) :
    (runE cmd args w).err = some usageError ∧ (runE cmd args w).trace = [] ∧
      (runE cmd args w).printed = [] := by
  have hcode : args.length + boolSum [cmd.abort, cmd.cont, cmd.remove] ≠ 1 := by
    match args with
    | [] => simpa using h
    | [x] => simpa using h
    | x :: y :: rest => simp only [List.length_cons]; omega
  simp [runE, hcode]

/-- C2 witness: no mode selected at all. -/
theorem invalid_mode_selection_witness :
    (runE ⟨false, false, false, false⟩ [] wOk).err = some usageError ∧
      (runE ⟨false, false, false, false⟩ [] wOk).trace = [] ∧
      (runE ⟨false, false, false, false⟩ [] wOk).printed = [] :=
  invalid_mode_selection ⟨false, false, false, false⟩ [] wOk (by decide)

/-- C3: the staging branch is always derived as the mergex stem plus the
current branch; in Continue it is deleted right after the merge-continue
step; in Abort it is deleted exactly when the hard reset to it succeeds;
in a non-dry-run merge it is deleted exactly when the final merge command
exits successfully. -/
theorem staging_branch_lifecycle (w : World) (ref b : String)
    (hlp : w.lookPathOk = true)
    (hok : (w.exec revParseArgs).ok = true)
    (hb : trimS (w.exec revParseArgs).out = b)
    (hf : (b == "master" || startsWithS b "release") = false) :
    mergexBranch b = "_mergex/" ++ b
    ∧ (runE ⟨false, false, true, false⟩ [] w).trace
        = [revParseArgs, mergeContinueArgs, deleteBranchArgs (mergexBranch b)]
    ∧ ((w.exec (resetHardArgs (mergexBranch b))).ok = true →
        (runE ⟨false, true, false, false⟩ [] w).trace
          = [revParseArgs, mergeAbortArgs, resetHardArgs (mergexBranch b),
              deleteBranchArgs (mergexBranch b)])
    ∧ ((w.exec (resetHardArgs (mergexBranch b))).ok = false →
        deleteBranchArgs (mergexBranch b) ∉ (runE ⟨false, true, false, false⟩ [] w).trace)
    ∧ ((w.exec (fetchArgs ref)).ok = true →
       trimS (w.exec statusArgs).out = "" →
       (w.exec (branchForceArgs (mergexBranch b))).ok = true →
       (w.exec (resetHardArgs (remoteBranch ref))).ok = true →
        (deleteBranchArgs (mergexBranch b) ∈ (runE ⟨false, false, false, false⟩ [ref] w).trace
          ↔ (w.exec (mergeArgs b ref)).ok = true)) := by
  have hhb := headBranch_ok_eq w b hok hb hf
  refine ⟨?_, ?_, ?_, ?_, ?_⟩
  · show mergex ++ "/" ++ b = "_mergex/" ++ b
    congr 1
  · rw [runE_ok_dispatch ⟨false, false, true, false⟩ [] w b (by decide) hlp hhb]
    simp [withTrace, runContinue]
  · intro hr
    rw [runE_ok_dispatch ⟨false, true, false, false⟩ [] w b (by decide) hlp hhb]
    simp [withTrace, runAbort, hr]
  · intro hr
    rw [runE_ok_dispatch ⟨false, true, false, false⟩ [] w b (by decide) hlp hhb]
    simp only [withTrace, runAbort, hr]
    simp [deleteBranchArgs, revParseArgs, mergeAbortArgs, resetHardArgs]
  · intro h1 h2 h3 h4
    rw [runE_ok_dispatch ⟨false, false, false, false⟩ [ref] w b
      (by simp [boolSum, List.foldl]) hlp hhb]
    cases hg : (w.exec (mergeArgs b ref)).ok with
    | true =>
      simp [withTrace, runMerge, h1, h2, h3, h4, hg]
    | false =>
      simp [withTrace, runMerge, h1, h2, h3, h4, hg]
      simp [deleteBranchArgs, revParseArgs, fetchArgs, statusArgs, branchForceArgs,
        resetHardArgs, mergeArgs]

/-- C3 witness at the concrete all-success world. -/
theorem staging_branch_lifecycle_witness :
    mergexBranch "feature-x" = "_mergex/" ++ "feature-x"
    ∧ (runE ⟨false, false, true, false⟩ [] wOk).trace
        = [revParseArgs, mergeContinueArgs, deleteBranchArgs (mergexBranch "feature-x")]
    ∧ ((wOk.exec (resetHardArgs (mergexBranch "feature-x"))).ok = true →
        (runE ⟨false, true, false, false⟩ [] wOk).trace
          = [revParseArgs, mergeAbortArgs, resetHardArgs (mergexBranch "feature-x"),
              deleteBranchArgs (mergexBranch "feature-x")])
    ∧ ((wOk.exec (resetHardArgs (mergexBranch "feature-x"))).ok = false →
        deleteBranchArgs (mergexBranch "feature-x")
          ∉ (runE ⟨false, true, false, false⟩ [] wOk).trace)
    ∧ ((wOk.exec (fetchArgs "main")).ok = true →
       trimS (wOk.exec statusArgs).out = "" →
       (wOk.exec (branchForceArgs (mergexBranch "feature-x"))).ok = true →
       (wOk.exec (resetHardArgs (remoteBranch "main"))).ok = true →
        (deleteBranchArgs (mergexBranch "feature-x")
            ∈ (runE ⟨false, false, false, false⟩ ["main"] wOk).trace
          ↔ (wOk.exec (mergeArgs "feature-x" "main")).ok = true)) :=
  staging_branch_lifecycle wOk "main" "feature-x" rfl (by decide) (by decide) (by decide)

/-- C4: in a non-dry-run merge that reached the final merge step, the
engine returns success whatever the exit status of the merge command, and
prints the fast-forward message when the merge output contains the
up-to-date marker, the raw merge output otherwise. -/
theorem merge_output_classification (w : World) (ref b : String)
    (hlp : w.lookPathOk = true)
    (hok : (w.exec revParseArgs).ok = true)
    (hb : trimS (w.exec revParseArgs).out = b)
    (hf : (b == "master" || startsWithS b "release") = false)
    (h1 : (w.exec (fetchArgs ref)).ok = true)
    (h2 : trimS (w.exec statusArgs).out = "")
    (h3 : (w.exec (branchForceArgs (mergexBranch b))).ok = true)
    (h4 : (w.exec (resetHardArgs (remoteBranch ref))).ok = true) :
    (runE ⟨false, false, false, false⟩ [ref] w).err = none ∧
    (runE ⟨false, false, false, false⟩ [ref] w).printed =
      [if containsS (w.exec (mergeArgs b ref)).out upToDate then fastForwardMsg ref
       else (w.exec (mergeArgs b ref)).out] := by
  have hhb := headBranch_ok_eq w b hok hb hf
  rw [runE_ok_dispatch ⟨false, false, false, false⟩ [ref] w b
    (by simp [boolSum, List.foldl]) hlp hhb]
  simp [withTrace, runMerge, h1, h2, h3, h4]

/-- C4 witness: the concrete world reports an up-to-date merge, so the
fast-forward message is printed and the run succeeds. -/
theorem merge_output_classification_witness :
    (runE ⟨false, false, false, false⟩ ["main"] wOk).err = none ∧
    (runE ⟨false, false, false, false⟩ ["main"] wOk).printed =
      [if containsS (wOk.exec (mergeArgs "feature-x" "main")).out upToDate
       then fastForwardMsg "main"
       else (wOk.exec (mergeArgs "feature-x" "main")).out] :=
  merge_output_classification wOk "main" "feature-x" rfl (by decide) (by decide)
    (by decide) (by decide) (by decide) (by decide) (by decide)

/-- C5: in a non-dry-run merge, a non-empty trimmed porcelain status output
fails the run with the changes-not-committed error carrying that output,
and no local-branch-mutating command was issued. -/
theorem uncommitted_changes_block_merge (w : World) (ref b s : String)
    (hlp : w.lookPathOk = true)
    (hok : (w.exec revParseArgs).ok = true)
    (hb : trimS (w.exec revParseArgs).out = b)
    (hf : (b == "master" || startsWithS b "release") = false)
    (h1 : (w.exec (fetchArgs ref)).ok = true)
    (hs : trimS (w.exec statusArgs).out = s)
    (hne : 0 < s.length) :
    (runE ⟨false, false, false, false⟩ [ref] w).err
        = some ("Changes not committed before merge:\n" ++ s) ∧
      ∀ c ∈ (runE ⟨false, false, false, false⟩ [ref] w).trace,
        isBranchMutating c = false := by
  have hhb := headBranch_ok_eq w b hok hb hf
  rw [runE_ok_dispatch ⟨false, false, false, false⟩ [ref] w b
    (by simp [boolSum, List.foldl]) hlp hhb]
  have key : runMerge w false b (([ref] : List String).headD "")
      = ⟨some ("Changes not committed before merge:\n" ++ s), [fetchArgs ref, statusArgs], []⟩ := by
    simp [runMerge, h1, hs, hne]
  simp only [Bool.false_eq_true, if_false, key, withTrace]
  refine ⟨by trivial, ?_⟩
  intro c hc
  simp only [List.cons_append, List.nil_append, List.mem_cons, List.not_mem_nil, or_false] at hc
  rcases hc with rfl | rfl | rfl
  · rfl
  · rfl
  · rfl

/-- C5 witness at the concrete dirty-tree world. -/
theorem uncommitted_changes_block_merge_witness :
    (runE ⟨false, false, false, false⟩ ["main"] wDirty).err
        = some ("Changes not committed before merge:\n" ++ "M main.go") ∧
      ∀ c ∈ (runE ⟨false, false, false, false⟩ ["main"] wDirty).trace,
        isBranchMutating c = false :=
  uncommitted_changes_block_merge wDirty "main" "feature-x" "M main.go" rfl (by decide)
    (by decide) (by decide) (by decide) (by decide) (by decide)

/-- C6 counterexample: an invocation setting dry-run together with abort is
not rejected by the validation; it reports no usage error and issues
commands. -/
theorem dry_run_with_abort_not_rejected :
    (runE ⟨true, true, false, false⟩ [] wOk).err = none ∧
    (runE ⟨true, true, false, false⟩ [] wOk).trace ≠ [] := by decide

/-- C6 amended: abort, continue and remove are mutually exclusive with each
other and with the positional argument, but dry-run is not counted by the
validation; setting dry-run together with abort, continue or remove passes
validation and runs that mode with the dry-run flag ignored. -/
theorem dry_run_ignored_with_other_flags (cmd : Flags) (args : List String) (w : World)
    (h : cmd.abort = true ∨ cmd.cont = true ∨ cmd.remove = true) :
    runE cmd args w = runE ⟨false, cmd.abort, cmd.cont, cmd.remove⟩ args w := by
  rcases cmd with ⟨d, a, c, r⟩
  rcases h with h | h | h <;> subst h
  · rfl
  · cases a <;> rfl
  · cases a <;> cases c <;> rfl

/-- C6 amended witness: dry-run combined with abort behaves as plain
abort. -/
theorem dry_run_ignored_with_other_flags_witness :
    runE ⟨true, true, false, false⟩ [] wOk = runE ⟨false, true, false, false⟩ [] wOk :=
  dry_run_ignored_with_other_flags ⟨true, true, false, false⟩ [] wOk (Or.inl rfl)

/-- C7 counterexample: a run that propagates an error still exits with
status zero. -/
theorem error_run_exits_zero_cex :
    (runE ⟨false, false, false, false⟩ [] wOk).err.isSome = true ∧
    (Execute ⟨false, false, false, false⟩ [] wOk).exitCode = 0 := by decide

/-- C7 amended: every run exits with status zero; a propagated error is
printed after the workflow output but is not reflected in the exit status,
and a successful run prints only the workflow output. -/
theorem execute_exit_behavior (cmd : Flags) (args : List String) (w : World) :
    (Execute cmd args w).exitCode = 0 ∧
    (∀ e, (runE cmd args w).err = some e →
      (Execute cmd args w).printed = (runE cmd args w).printed ++ [e]) ∧
    ((runE cmd args w).err = none →
      (Execute cmd args w).printed = (runE cmd args w).printed) := by
  refine ⟨?_, fun e h => ?_, fun h => ?_⟩
  · cases h : (runE cmd args w).err <;> simp [Execute, h]
  · simp [Execute, h]
  · simp [Execute, h]

/-- C7 amended witness: exit status zero at a concrete erroring run. -/
theorem execute_exit_behavior_witness :
    (Execute ⟨false, false, false, false⟩ [] wOk).exitCode = 0 :=
  (execute_exit_behavior ⟨false, false, false, false⟩ [] wOk).1

/-- C8: when the fetch fails, the engine prints the captured fetch output,
adds the do-not-prefix hint exactly when the lower-cased output signals a
missing remote ref and the target ref starts with the remote name, and
propagates the fetch command error. -/
theorem fetch_failure_reporting (w : World) (dr : Bool) (ref b : String)
    (hlp : w.lookPathOk = true)
    (hok : (w.exec revParseArgs).ok = true)
    (hb : trimS (w.exec revParseArgs).out = b)
    (hf : (b == "master" || startsWithS b "release") = false)
    (hfe : (w.exec (fetchArgs ref)).ok = false) :
    (runE ⟨dr, false, false, false⟩ [ref] w).err
        = some (commandError (fetchArgs ref) (w.exec (fetchArgs ref)).errMsg) ∧
    (runE ⟨dr, false, false, false⟩ [ref] w).printed
      = (w.exec (fetchArgs ref)).out ::
          (if containsS (toLowerS (w.exec (fetchArgs ref)).out) remoteRefMissing
              && startsWithS ref remote
           then [fetchHint ref] else []) := by
  have hhb := headBranch_ok_eq w b hok hb hf
  rw [runE_ok_dispatch ⟨dr, false, false, false⟩ [ref] w b
    (by simp [boolSum, List.foldl]) hlp hhb]
  simp [withTrace, runMerge, hfe]

/-- C8 witness at the concrete failing-fetch world; the target ref starts
with the remote name, so the hint branch of the classification is the one
taken. -/
theorem fetch_failure_reporting_witness :
    (runE ⟨false, false, false, false⟩ ["origin-main"] wFetchFail).err
        = some (commandError (fetchArgs "origin-main")
            (wFetchFail.exec (fetchArgs "origin-main")).errMsg) ∧
    (runE ⟨false, false, false, false⟩ ["origin-main"] wFetchFail).printed
      = (wFetchFail.exec (fetchArgs "origin-main")).out ::
          (if containsS (toLowerS (wFetchFail.exec (fetchArgs "origin-main")).out)
                remoteRefMissing
              && startsWithS "origin-main" remote
           then [fetchHint "origin-main"] else []) :=
  fetch_failure_reporting wFetchFail false "origin-main" "feature-x" rfl (by decide)
    (by decide) (by decide) (by decide)

/-- C9 counterexample: the status-read command fails, yet the engine
reports no error and still issues the staging-branch creation. -/
theorem status_failure_ignored_cex :
    (wStatusFail.exec statusArgs).ok = false ∧
    (runE ⟨false, false, false, false⟩ ["main"] wStatusFail).err = none ∧
    branchForceArgs (mergexBranch "feature-x")
      ∈ (runE ⟨false, false, false, false⟩ ["main"] wStatusFail).trace := by decide

/-- C9 amended: the exit status of the status read is ignored; when its
trimmed output is empty the merge proceeds to the staging-branch creation
even though the status command failed. -/
theorem status_exit_ignored (w : World) (ref b : String)
    (hlp : w.lookPathOk = true)
    (hok : (w.exec revParseArgs).ok = true)
    (hb : trimS (w.exec revParseArgs).out = b)
    (hf : (b == "master" || startsWithS b "release") = false)
    (h1 : (w.exec (fetchArgs ref)).ok = true)
    (hsf : (w.exec statusArgs).ok = false)
    (h2 : trimS (w.exec statusArgs).out = "") :
    statusArgs ∈ (runE ⟨false, false, false, false⟩ [ref] w).trace ∧
    branchForceArgs (mergexBranch b)
      ∈ (runE ⟨false, false, false, false⟩ [ref] w).trace := by
  have hhb := headBranch_ok_eq w b hok hb hf
  rw [runE_ok_dispatch ⟨false, false, false, false⟩ [ref] w b
    (by simp [boolSum, List.foldl]) hlp hhb]
  cases h3 : (w.exec (branchForceArgs (mergexBranch b))).ok with
  | false => simp [withTrace, runMerge, h1, h2, h3]
  | true =>
    cases h4 : (w.exec (resetHardArgs (remoteBranch ref))).ok with
    | false => simp [withTrace, runMerge, h1, h2, h3, h4]
    | true => simp [withTrace, runMerge, h1, h2, h3, h4]

/-- C9 amended witness at the concrete failing-status world. -/
theorem status_exit_ignored_witness :
    statusArgs ∈ (runE ⟨false, false, false, false⟩ ["main"] wStatusFail).trace ∧
    branchForceArgs (mergexBranch "feature-x")
      ∈ (runE ⟨false, false, false, false⟩ ["main"] wStatusFail).trace :=
  status_exit_ignored wStatusFail "main" "feature-x" rfl (by decide) (by decide)
    (by decide) (by decide) (by decide) (by decide)

/-- C10 counterexample: with the current branch master, remove mode reads
the branch name through rev-parse and fails with the forbidden-branch
error instead of succeeding. -/
theorem remove_forbidden_on_master_cex :
    (runE ⟨false, false, false, true⟩ [] wMaster).err
        = some ("branch master is forbidden") ∧
    (runE ⟨false, false, false, true⟩ [] wMaster).trace = [revParseArgs] := by decide

/-- C10 amended: remove mode reads the current branch first and is subject
to the forbidden-branch precondition; on an allowed branch it lists local
branches, force-deletes the mergex-prefixed ones in one command when any
exist, and succeeds with no further command otherwise. -/
theorem remove_mode_behavior (w : World) (b : String)
    (hlp : w.lookPathOk = true)
    (hok : (w.exec revParseArgs).ok = true)
    (hb : trimS (w.exec revParseArgs).out = b) :
    ((b == "master" || startsWithS b "release") = true →
      (runE ⟨false, false, false, true⟩ [] w).err
          = some ("branch " ++ b ++ " is forbidden") ∧
      (runE ⟨false, false, false, true⟩ [] w).trace = [revParseArgs]) ∧
    ((b == "master" || startsWithS b "release") = false →
      (w.exec listBranchArgs).ok = true →
      (runE ⟨false, false, false, true⟩ [] w).err = none ∧
      (runE ⟨false, false, false, true⟩ [] w).trace
        = [revParseArgs, listBranchArgs]
          ++ (if 0 < (collectMergexBranches (w.exec listBranchArgs).out).length
              then [removeBranchesArgs (collectMergexBranches (w.exec listBranchArgs).out)]
              else [])) := by
  constructor
  · intro hf
    have hhb := headBranch_forbidden_eq w b hok hb hf
    rw [runE_headBranch_error ⟨false, false, false, true⟩ [] w _ (by decide) hlp hhb]
    exact ⟨rfl, rfl⟩
  · intro hf hl
    have hhb := headBranch_ok_eq w b hok hb hf
    rw [runE_ok_dispatch ⟨false, false, false, true⟩ [] w b (by decide) hlp hhb]
    by_cases hgt : 0 < (collectMergexBranches (w.exec listBranchArgs).out).length
    · simp [withTrace, runRemove, hl, hgt]
    · simp [withTrace, runRemove, hl, hgt]

/-- C10 amended witness at the all-success world, whose branch listing
holds one mergex-prefixed temporary branch. -/
theorem remove_mode_behavior_witness :
    ((("feature-x" : String) == "master" || startsWithS "feature-x" "release") = true →
      (runE ⟨false, false, false, true⟩ [] wOk).err
          = some ("branch " ++ "feature-x" ++ " is forbidden") ∧
      (runE ⟨false, false, false, true⟩ [] wOk).trace = [revParseArgs]) ∧
    ((("feature-x" : String) == "master" || startsWithS "feature-x" "release") = false →
      (wOk.exec listBranchArgs).ok = true →
      (runE ⟨false, false, false, true⟩ [] wOk).err = none ∧
      (runE ⟨false, false, false, true⟩ [] wOk).trace
        = [revParseArgs, listBranchArgs]
          ++ (if 0 < (collectMergexBranches (wOk.exec listBranchArgs).out).length
              then [removeBranchesArgs (collectMergexBranches (wOk.exec listBranchArgs).out)]
              else [])) :=
  remove_mode_behavior wOk "feature-x" rfl (by decide) (by decide)

end GitMergex
